import Mathlib

/-!
Verification development for the midbel/log pattern-driven log codec.

The Go sources are embedded shallowly: the shared lexical scanner
(cmd/cat/main.go), the read-pattern compiler (format.go), the symbolic
time-format translator (timefmt.go, first version, whose `timeMapping`
is cited by the claims), the filter-expression compiler (filter.go),
the write-pattern compiler (part_005 `parsePrint` together with the
part_004 `Text` constructor), and the Reader (part_006, the version
whose `Entry` carries `Lino`; reader.go is the same code minus the
`lino` counter).

Conventions of the embedding:
* Go runes are `Char`; `utf8.RuneError` is the replacement character.
* Go's `string` is represented as `List Char` inside the scanner (all
  inputs of interest are ASCII, where Go byte order and `Char` order
  agree) and as `String` elsewhere.
* Mutation is threaded explicitly: a Go function mutating `*Entry` or
  `*scanner` becomes a Lean function returning the updated value.
* Go loops with no structural decrease are written with an explicit
  fuel argument; the wrappers pass `input.length + 2`, which bounds the
  number of iterations of every such loop (each iteration either
  advances the scanner's `next` index, which is capped by the input
  length, or terminates the loop).
* `time.Parse` (Go standard library, not repository code) is an
  abstract parameter `tp : TP`; an unparseable value is `tp fmt s = none`.
  Other standard-library string renderings that no claim depends on
  (`time.Time.Format`) are given harmless concrete stand-ins.
-/

/-- Timestamps: an instant as used for `time.Time` comparisons
(`Before` is `<`, `Equal` is `=`); the Go zero time is `0`. -/
abbrev Timestamp := Int

/-- Abstract model of Go's `time.Parse layout value`: `none` means the
parse failed. `time.Parse` is standard-library code, not part of this
repository, so it stays a parameter of the development. -/
abbrev TP := String → String → Option Timestamp

/-- Errors returned by the Go code.  `pattern` are the errors wrapping
`ErrPattern` (recognised by `errors.Is(err, ErrPattern)` in the
Reader); `syntaxErr` are the errors wrapping `ErrSyntax`; `other`
covers everything else (`strconv.Atoi` failures, `time.Parse`
failures, unrecognised names). -/
inductive GoErr where
  | pattern (msg : String)
  | syntaxErr (msg : String)
  | other (msg : String)
deriving DecidableEq

/-- Go `utf8.RuneError`, the value `read`/`peek` return past the end. -/
def runeError : Char := '�'

/-- Scanner predicate `isDigit` (cmd/cat/main.go). -/
def goIsDigit (r : Char) : Bool := decide ('0' ≤ r ∧ r ≤ '9')

/-- Scanner predicate `isLetter` (cmd/cat/main.go). -/
def goIsLetter (r : Char) : Bool :=
  decide (('a' ≤ r ∧ r ≤ 'z') ∨ ('A' ≤ r ∧ r ≤ 'Z'))

/-- Scanner predicate `isAlpha` (cmd/cat/main.go: digits, letters,
`-`, `_`, `.`). -/
def goIsAlpha (r : Char) : Bool :=
  goIsDigit r || goIsLetter r || decide (r = '-' ∨ r = '_' ∨ r = '.')

/-- Scanner predicate `isBlank` (cmd/cat/main.go). -/
def goIsBlank (r : Char) : Bool := decide (r = ' ' ∨ r = '\t' ∨ r = '\n')

/-- Scanner predicate `isEOL` (cmd/cat/main.go: NUL or `RuneError`). -/
def goIsEOL (r : Char) : Bool := decide (r.toNat = 0 ∨ r = runeError)

/-- Scanner predicate `isQuote` (cmd/cat/main.go): a single or double
quote (the single quote written by code point to appease literal
conventions). -/
def goIsQuote (r : Char) : Bool := decide (r = Char.ofNat 39 ∨ r = '"')

/-- The `scanner` of cmd/cat/main.go: an input string with a cursor
(`curr`, `next`) and the saved previous cursor (`old`) used by the
one-level `unread`. -/
structure Scanner where
  input : List Char
  curr : Nat
  next : Nat
  oldCurr : Nat
  oldNext : Nat
deriving DecidableEq

/-- `scan(str)`: a fresh scanner at position zero. -/
def scan (str : List Char) : Scanner := ⟨str, 0, 0, 0, 0⟩

/-- `read()`: save the cursor into `old`, decode the rune at `next`
(`RuneError` of size 0 past the end), advance. -/
def Scanner.read (s : Scanner) : Char × Scanner :=
  if h : s.next < s.input.length then
    (s.input.get ⟨s.next, h⟩,
      { s with curr := s.next, next := s.next + 1,
               oldCurr := s.curr, oldNext := s.next })
  else
    (runeError,
      { s with curr := s.next, oldCurr := s.curr, oldNext := s.next })

/-- `unread()`: restore the cursor saved by the last `read`; a second
consecutive `unread` is an error in Go and leaves the cursor alone
(every caller ignores the returned error). -/
def Scanner.unread (s : Scanner) : Scanner :=
  if s.curr = s.oldCurr ∧ s.next = s.oldNext then s
  else { s with curr := s.oldCurr, next := s.oldNext }

/-- `current()`: the rune at the last consumed position. -/
def Scanner.current (s : Scanner) : Char :=
  if h : s.curr < s.input.length then s.input.get ⟨s.curr, h⟩ else runeError

/-- `peek()`: the rune at `next`, without advancing. -/
def Scanner.peek (s : Scanner) : Char :=
  if h : s.next < s.input.length then s.input.get ⟨s.next, h⟩ else runeError

/-- `done()`: the cursor has consumed the final position. -/
def Scanner.done (s : Scanner) : Bool := decide (s.input.length ≤ s.curr)

/-- Loop body of `readUntil` with fuel (see the fuel convention in the
file header: at most `input.length + 2` iterations can occur). -/
def Scanner.readUntilAux : Nat → Scanner → (Char → Bool) → List Char × Scanner
  | 0, s, _ => ([], s)
  | fuel + 1, s, accept =>
    if s.done then ([], s)
    else
      let p := s.read
      if accept p.1 then
        let q := Scanner.readUntilAux fuel p.2 accept
        (p.1 :: q.1, q.2)
      else ([], p.2)

/-- `readUntil(accept)`: consume and accumulate runes while `accept`
holds; the rejecting rune stays consumed (callers `unread` it). -/
def Scanner.readUntil (s : Scanner) (accept : Char → Bool) : List Char × Scanner :=
  Scanner.readUntilAux (s.input.length + 2) s accept

/-- `readAlpha()`: maximal `isAlpha` run, then one `unread`. -/
def Scanner.readAlpha (s : Scanner) : List Char × Scanner :=
  let p := s.readUntil goIsAlpha
  (p.1, p.2.unread)

/-- `readText()`: maximal `isLetter` run, then one `unread`. -/
def Scanner.readText (s : Scanner) : List Char × Scanner :=
  let p := s.readUntil goIsLetter
  (p.1, p.2.unread)

/-- `readQuote()`: consume the opening quote (the current rune), then
everything up to the matching quote. -/
def Scanner.readQuote (s : Scanner) : List Char × Scanner :=
  let quote := s.current
  let p := s.read
  p.2.readUntil (fun c => decide (c = quote))

/-- `readLiteral()`: a quoted run if the next rune is a quote, else an
alpha run. -/
def Scanner.readLiteral (s : Scanner) : List Char × Scanner :=
  if goIsQuote s.peek then s.readQuote else s.readAlpha

/-- `readBlank()`: skip a maximal blank run, then one `unread`. -/
def Scanner.readBlank (s : Scanner) : Scanner :=
  (s.readUntil goIsBlank).2.unread

/-- `readN(n)`: read `n` runes unconditionally. -/
def Scanner.readN : Scanner → Nat → List Char × Scanner
  | s, 0 => ([], s)
  | s, n + 1 =>
    let p := s.read
    let q := p.2.readN n
    (p.1 :: q.1, q.2)

/-- String view of a rune list (Go `buf.String()`). -/
def chlist (cs : List Char) : String := String.mk cs

/-! ## Record model (Entry, part_000 version: the one carrying `Lino`) -/

/-- The `Entry` record (part_000).  `named` is `none` for Go's nil map
(the zero value) and `some m` for an allocated map. -/
structure Entry where
  lino : Nat := 0
  line : String := ""
  pid : Int := 0
  process : String := ""
  user : String := ""
  group : String := ""
  level : String := ""
  message : String := ""
  words : List String := []
  named : Option (List (String × String)) := none
  host : String := ""
  whenT : Timestamp := 0
deriving DecidableEq

/-- `Empty()`: the zero `Entry` with an allocated (empty) `Named` map. -/
def emptyEntry : Entry := { named := some [] }

/-- Assignment `m[k] = v` on the assoc-list model of a Go map. -/
def mapSet (m : List (String × String)) (k v : String) : List (String × String) :=
  match m with
  | [] => [(k, v)]
  | (k1, v1) :: rest => if k1 = k then (k, v) :: rest else (k1, v1) :: mapSet rest k v

/-! ## Typed field values and the filter comparators (filter.go) -/

/-- The dynamic type of a field value handed to the comparators
(`getField` only ever produces `int`, `string` or `time.Time`). -/
inductive GoValue where
  | vint (n : Int)
  | vstr (s : String)
  | vtime (t : Timestamp)
deriving DecidableEq

/-- Digit-run value for `strconv.Atoi`. -/
def digitsVal (ds : List Char) : Option Int :=
  if ds ≠ [] ∧ ds.all goIsDigit then
    some (ds.foldl (fun a c => a * 10 + (c.toNat - 48 : Nat)) 0)
  else none

/-- Go `strconv.Atoi`: `none` is a syntax error (in which case Go
returns the value 0).  The deviation for out-of-range 64-bit inputs
(where Go clamps) is irrelevant here: no claim involves such inputs. -/
def atoiQ (s : String) : Option Int :=
  match s.data with
  | [] => none
  | '+' :: rest => digitsVal rest
  | '-' :: rest => (digitsVal rest).map (fun n => -n)
  | ds => digitsVal ds

/-- The value of `n` after `n, _ := strconv.Atoi(value)`. -/
def atoiOr0 (s : String) : Int := (atoiQ s).getD 0

/-- Strict bytewise order of Go strings (`<` on ASCII `List Char`). -/
def lexLt : List Char → List Char → Bool
  | [], [] => false
  | [], _ :: _ => true
  | _ :: _, [] => false
  | a :: as, b :: bs => if a < b then true else if b < a then false else lexLt as bs

/-- Non-strict bytewise order of Go strings. -/
def lexLe : List Char → List Char → Bool
  | [], _ => true
  | _ :: _, [] => false
  | a :: as, b :: bs => if a < b then true else if b < a then false else lexLe as bs

/-- Go `a < b` on strings. -/
def goStringLt (a b : String) : Bool := lexLt a.data b.data

/-- Go `a <= b` on strings. -/
def goStringLe (a b : String) : Bool := lexLe a.data b.data

/-- The list of absolute formats tried by `parseTime` (timefmt.go). -/
def timesFormat : List String := ["2006-01-02", "2006-01-02 15:04:05", "2006-01-02T15:04:05"]

/-- First successful parse in a list of attempts. -/
def firstSome : List (Option Timestamp) → Option Timestamp
  | [] => none
  | some t :: _ => some t
  | none :: rest => firstSome rest

/-- `parseTime` (timefmt.go): try each format in order; `none` means
every attempt failed (Go then returns the zero time and the error). -/
def parseTime (tp : TP) (str : String) : Option Timestamp :=
  firstSome (timesFormat.map (fun f => tp f str))

/-- `lessThan` (filter.go): typed comparison of a field value against
the literal.  A failed `Atoi` or `parseTime` contributes the zero
value (`n, _ :=` / `w, _ :=`); the Go `default` branch (false) is
unreachable because `getField` only yields the three cases. -/
def lessThan (tp : TP) : GoValue → String → Bool
  | .vint v, value => decide (v < atoiOr0 value)
  | .vstr v, value => goStringLt v value
  | .vtime v, value => decide (v < (parseTime tp value).getD 0)

/-- `equal` (filter.go): typed equality, with the same zero-value
behaviour on conversion failure as `lessThan`. -/
def equal (tp : TP) : GoValue → String → Bool
  | .vint v, value => decide (v = atoiOr0 value)
  | .vstr v, value => decide (v = value)
  | .vtime v, value => decide (v = (parseTime tp value).getD 0)

/-- `getField` (filter.go): `none` is the "field not recognized"
error. -/
def getField (field : String) (e : Entry) : Option GoValue :=
  match field with
  | "hostname" | "host" => some (.vstr e.host)
  | "level" => some (.vstr e.level)
  | "user" => some (.vstr e.user)
  | "group" => some (.vstr e.group)
  | "pid" => some (.vint e.pid)
  | "process" => some (.vstr e.process)
  | "message" => some (.vstr e.message)
  | "time" => some (.vtime e.whenT)
  | _ => none

/-- Go `fmt.Sprintf("%s", set)` as used by `makeLike`/`makeIn`: a
string prints as itself; an `int` prints with the `%!s` verb-mismatch
noise; the time rendering is a harmless stand-in (no claim depends on
it). -/
def goSprintfS : GoValue → String
  | .vstr s => s
  | .vint n => "%!s(int=" ++ toString n ++ ")"
  | .vtime t => "time " ++ toString t

/-- Go `strings.Contains`. -/
def goContains (s sub : String) : Bool :=
  (List.range (s.data.length + 1)).any (fun i => sub.data.isPrefixOf (s.data.drop i))

/-- Insertion step for `sort.Strings`. -/
def insertStr (x : String) : List String → List String
  | [] => [x]
  | y :: ys => if goStringLe x y then x :: y :: ys else y :: insertStr x ys

/-- Go `sort.Strings` (ascending bytewise order). -/
def sortStrings (l : List String) : List String := l.foldr insertStr []

/-- Go `sort.SearchStrings(list, x)`: the least index whose element is
not below `x` (on the sorted lists it is applied to, the linear scan
agrees with the binary search). -/
def searchStrings (l : List String) (x : String) : Nat :=
  l.findIdx (fun y => !goStringLt y x)

/-! ## Symbolic time-format translator (timefmt.go, first version) -/

/-- `timeMapping` (timefmt.go lines 56-73). -/
def timeMapping : List (String × String) :=
  [("yy", "06"), ("yyyy", "2006"), ("m", "1"), ("mm", "01"), ("mmm", "Jan"),
   ("ccc", "Mon"), ("d", "2"), ("dd", "02"), ("ddd", "002"), ("H", "3"),
   ("HH", "15"), ("M", "4"), ("MM", "04"), ("ss", "05"), ("S", "0"), ("SSS", "000")]

/-- Read of the Go map `timeMapping[k]` (missing key gives `""`). -/
def timeMappingGet (k : String) : String :=
  ((timeMapping.find? (fun kv => kv.1 = k)).map (fun kv => kv.2)).getD ""

/-- Number of (possibly overlapping) occurrences of `needle` inside
`hay`. -/
def countOccur (needle hay : List Char) : Nat :=
  (List.range (hay.length + 1)).countP (fun i => needle.isPrefixOf (hay.drop i))

/-- `len(timeCodes.Lookup(tmp, -1))`: the number of occurrences of
`tmp` in the suffix-indexed data, which is the `timeMapping` keys
joined with NUL separators.  `tmp` is always a run of letters, so an
occurrence never spans a separator and the count is the sum of the
per-key counts — independent of Go's map iteration order.  The empty
pattern gets no matches (`suffixarray.Lookup` returns `nil` for it). -/
def lookupCount (tmp : List Char) : Nat :=
  if tmp = [] then 0
  else (timeMapping.map (fun kv => countOccur tmp kv.1.data)).sum

/-- `defaultTimeFormat` (src/format.go line 143). -/
def defaultTimeFormat : String := "yyyy-mm-dd HH:MM:SS"

/-- Loop body of `parseTimeFormat` (timefmt.go lines 21-50), with the
fuel convention of the file header.  State: the pending candidate
`tmp` and the output `res`. -/
def ttLoop : Nat → Scanner → List Char → List Char → Except GoErr (List Char × Scanner)
  | 0, s, _, res => .ok (res, s)
  | fuel + 1, s, tmp, res =>
    if s.done then .ok (res, s)
    else
      let p := s.read
      if goIsEOL p.1 then .error (.syntaxErr "missing closing paren")
      else if p.1 = ')' then .ok (res, p.2)
      else if !goIsLetter p.1 then
        let res1 := if 0 < lookupCount tmp then res ++ (timeMappingGet (chlist tmp)).data else res
        ttLoop fuel p.2 [] (res1 ++ [p.1])
      else
        let tmp1 := tmp ++ [p.1]
        if lookupCount tmp1 = 1 then
          ttLoop fuel p.2 [] (res ++ (timeMappingGet (chlist tmp1)).data)
        else if lookupCount tmp1 = 0 ∧ tmp ≠ [] then
          ttLoop fuel p.2 [] (res ++ (timeMappingGet (chlist tmp)).data ++ [p.1])
        else
          ttLoop fuel p.2 tmp1 res

/-- `parseTimeFormat` (timefmt.go lines 11-52): without a parenthesized
template the default applies; otherwise translate the template up to
the closing parenthesis. -/
def parseTimeFormat (s : Scanner) : Except GoErr (String × Scanner) :=
  if s.peek ≠ '(' then .ok (defaultTimeFormat, s)
  else
    let s1 := (s.read).2
    (ttLoop (s.input.length + 2) s1 [] []).map (fun p => (chlist p.1, p.2))

/-! ## Filter-expression compiler (filter.go) -/

/-- `filterfunc`. -/
abbrev Filterfunc := Entry → Bool

/-- `makeAll`: short-circuit conjunction. -/
def makeAll (fs : List Filterfunc) : Filterfunc := fun e => fs.all (fun f => f e)

/-- `makeAny`: short-circuit disjunction. -/
def makeAny (fs : List Filterfunc) : Filterfunc := fun e => fs.any (fun f => f e)

/-- `makeNot`. -/
def makeNot (f : Filterfunc) : Filterfunc := fun e => !f e

/-- `parseFieldValue` (filter.go lines 285-304): `(`, field as a letter
run, `,`, value as an alpha run, `)`. -/
def parseFieldValue (s : Scanner) : Except GoErr (String × String × Scanner) :=
  let p := s.read
  if p.1 ≠ '(' then .error (.syntaxErr "missing opening paren")
  else
    let s1 := p.2.readBlank
    let qf := s1.readText
    let pc := qf.2.read
    if pc.1 ≠ ',' then .error (.syntaxErr "missing comma")
    else
      let s2 := pc.2.readBlank
      let qv := s2.readAlpha
      let pr := qv.2.read
      if pr.1 ≠ ')' then .error (.syntaxErr "missing closing paren")
      else .ok (chlist qf.1, chlist qv.1, pr.2.readBlank)

/-- Loop body of `parseFieldList` (filter.go lines 319-331), with the
fuel convention of the file header. -/
def fieldListLoop : Nat → Scanner → List String → Except GoErr (List String × Scanner)
  | 0, s, list => .ok (list, s)
  | fuel + 1, s, list =>
    if !s.done ∧ s.current ≠ ')' then
      let q := s.readLiteral
      let list1 := list ++ [chlist q.1]
      let p := q.2.read
      if p.1 = ',' then
        let s1 := p.2.readBlank
        if s1.current = ')' then .error (.syntaxErr "unexpected comma before closing paren")
        else fieldListLoop fuel s1 list1
      else if p.1 = ')' then fieldListLoop fuel p.2 list1
      else .error (.syntaxErr "unexpected character")
    else .ok (list, s)

/-- `parseFieldList` (filter.go lines 306-340).  Note the post-loop
`str.read()` — the closing parenthesis was already consumed inside the
loop's `switch`, so this read demands a second `)` (compare
`parseVariadic`, which inspects `str.current()` here instead). -/
def parseFieldList (s : Scanner) : Except GoErr (String × List String × Scanner) :=
  let p := s.read
  if p.1 ≠ '(' then .error (.syntaxErr "missing opening paren")
  else
    let s1 := p.2.readBlank
    let qf := s1.readText
    let pc := qf.2.read
    if pc.1 ≠ ',' then .error (.syntaxErr "missing comma")
    else
      match fieldListLoop (s.input.length + 2) pc.2.readBlank [] with
      | .error err => .error err
      | .ok (list, s2) =>
        let pr := s2.read
        if pr.1 ≠ ')' then .error (.syntaxErr "missing closing paren")
        else .ok (chlist qf.1, sortStrings list, pr.2.readBlank)

/-- The predicate compiled by `makeEq` for a field/value pair
(`err == nil && equal(set, value)`). -/
def makeEqFn (tp : TP) (field value : String) : Filterfunc := fun e =>
  match getField field e with
  | some set => equal tp set value
  | none => false

/-- `makeEq`. -/
def makeEq (tp : TP) (s : Scanner) : Except GoErr (Filterfunc × Scanner) :=
  match parseFieldValue s with
  | .error err => .error err
  | .ok (field, value, s1) => .ok (makeEqFn tp field value, s1)

/-- `makeNe`: compile via `makeEq`, then negate. -/
def makeNe (tp : TP) (s : Scanner) : Except GoErr (Filterfunc × Scanner) :=
  match makeEq tp s with
  | .error err => .error err
  | .ok (fn, s1) => .ok (makeNot fn, s1)

/-- The predicate compiled by `makeLt`. -/
def makeLtFn (tp : TP) (field value : String) : Filterfunc := fun e =>
  match getField field e with
  | some set => lessThan tp set value
  | none => false

/-- `makeLt`. -/
def makeLt (tp : TP) (s : Scanner) : Except GoErr (Filterfunc × Scanner) :=
  match parseFieldValue s with
  | .error err => .error err
  | .ok (field, value, s1) => .ok (makeLtFn tp field value, s1)

/-- The predicate compiled by `makeLe`. -/
def makeLeFn (tp : TP) (field value : String) : Filterfunc := fun e =>
  match getField field e with
  | some set => lessThan tp set value || equal tp set value
  | none => false

/-- `makeLe`. -/
def makeLe (tp : TP) (s : Scanner) : Except GoErr (Filterfunc × Scanner) :=
  match parseFieldValue s with
  | .error err => .error err
  | .ok (field, value, s1) => .ok (makeLeFn tp field value, s1)

/-- The predicate compiled by `makeGt`. -/
def makeGtFn (tp : TP) (field value : String) : Filterfunc := fun e =>
  match getField field e with
  | some set => !lessThan tp set value && !equal tp set value
  | none => false

/-- `makeGt`. -/
def makeGt (tp : TP) (s : Scanner) : Except GoErr (Filterfunc × Scanner) :=
  match parseFieldValue s with
  | .error err => .error err
  | .ok (field, value, s1) => .ok (makeGtFn tp field value, s1)

/-- The predicate compiled by `makeGe` (note the source's
`!lessThan(set, value) || equal(set, value)`). -/
def makeGeFn (tp : TP) (field value : String) : Filterfunc := fun e =>
  match getField field e with
  | some set => !lessThan tp set value || equal tp set value
  | none => false

/-- `makeGe`. -/
def makeGe (tp : TP) (s : Scanner) : Except GoErr (Filterfunc × Scanner) :=
  match parseFieldValue s with
  | .error err => .error err
  | .ok (field, value, s1) => .ok (makeGeFn tp field value, s1)

/-- The predicate compiled by `makeLike` (substring containment on the
`%s` rendering). -/
def makeLikeFn (field value : String) : Filterfunc := fun e =>
  match getField field e with
  | some set => goContains (goSprintfS set) value
  | none => false

/-- `makeLike`. -/
def makeLike (s : Scanner) : Except GoErr (Filterfunc × Scanner) :=
  match parseFieldValue s with
  | .error err => .error err
  | .ok (field, value, s1) => .ok (makeLikeFn field value, s1)

/-- The predicate compiled by `makeBetween` from the sorted pair. -/
def makeBetweenFn (tp : TP) (field v0 v1 : String) : Filterfunc := fun e =>
  match getField field e with
  | some set =>
    if equal tp set v0 || equal tp set v1 then true
    else !lessThan tp set v0 && lessThan tp set v1
  | none => false

/-- `makeBetween` (filter.go lines 144-163): exactly two values are
required after parsing. -/
def makeBetween (tp : TP) (s : Scanner) : Except GoErr (Filterfunc × Scanner) :=
  match parseFieldList s with
  | .error err => .error err
  | .ok (field, list, s1) =>
    match list with
    | [v0, v1] => .ok (makeBetweenFn tp field v0 v1, s1)
    | _ => .error (.other "too many values given for between")

/-- The predicate compiled by `makeIn` (binary search in the sorted
list). -/
def makeInFn (field : String) (list : List String) : Filterfunc := fun e =>
  match getField field e with
  | some set =>
    let search := goSprintfS set
    let i := searchStrings list search
    decide (i < list.length) && decide (list.getD i "" = search)
  | none => false

/-- `makeIn`. -/
def makeIn (s : Scanner) : Except GoErr (Filterfunc × Scanner) :=
  match parseFieldList s with
  | .error err => .error err
  | .ok (field, list, s1) => .ok (makeInFn field list, s1)

/-- `parseUnary` (filter.go lines 374-390), parameterised by the
continuation into `parseFunction` (which carries the fuel). -/
def parseUnary (pf : Scanner → Except GoErr (Filterfunc × Scanner)) (s : Scanner) :
    Except GoErr (Filterfunc × Scanner) :=
  let p := s.read
  if p.1 ≠ '(' then .error (.syntaxErr "missing opening paren")
  else
    match pf p.2.readBlank with
    | .error err => .error err
    | .ok (fn, s1) =>
      let pr := s1.read
      if pr.1 ≠ ')' then .error (.syntaxErr "missing closing paren")
      else .ok (fn, pr.2.readBlank)

/-- Loop body of `parseVariadic` (filter.go lines 349-365). -/
def variadicLoop (pf : Scanner → Except GoErr (Filterfunc × Scanner)) :
    Nat → Scanner → List Filterfunc → Except GoErr (List Filterfunc × Scanner)
  | 0, s, fs => .ok (fs, s)
  | fuel + 1, s, fs =>
    if !s.done ∧ s.current ≠ ')' then
      match pf s with
      | .error err => .error err
      | .ok (fn, s1) =>
        let p := s1.read
        if p.1 = ',' then
          let s2 := p.2.readBlank
          if s2.current = ')' then .error (.syntaxErr "unexpected comma before closing paren")
          else variadicLoop pf fuel s2 (fs ++ [fn])
        else if p.1 = ')' then variadicLoop pf fuel p.2 (fs ++ [fn])
        else .error (.syntaxErr "unexpected character")
    else .ok (fs, s)

/-- `parseVariadic` (filter.go lines 342-372); its post-loop check uses
`str.current()`. -/
def parseVariadic (pf : Scanner → Except GoErr (Filterfunc × Scanner)) (s : Scanner) :
    Except GoErr (List Filterfunc × Scanner) :=
  let p := s.read
  if p.1 ≠ '(' then .error (.syntaxErr "missing opening paren")
  else
    match variadicLoop pf (s.input.length + 2) p.2.readBlank [] with
    | .error err => .error err
    | .ok (fs, s1) =>
      if s1.current ≠ ')' then .error (.syntaxErr "missing closing paren")
      else .ok (fs, s1.readBlank)

/-- `parseFunction` (filter.go lines 237-283).  The fuel bounds the
nesting depth of `all`/`any`/`not` (each nested call sits behind at
least one consumed input character, so `input.length + 2` is always
enough). -/
def parseFunction (tp : TP) : Nat → Scanner → Except GoErr (Filterfunc × Scanner)
  | 0, _ => .error (.other "out of fuel")
  | fuel + 1, s =>
    let q := s.readAlpha
    let name := chlist q.1
    let s0 := q.2
    if name = "all" then
      match parseVariadic (parseFunction tp fuel) s0 with
      | .error err => .error err
      | .ok (fs, s1) => .ok (makeAll fs, s1)
    else if name = "any" then
      match parseVariadic (parseFunction tp fuel) s0 with
      | .error err => .error err
      | .ok (fs, s1) => .ok (makeAny fs, s1)
    else if name = "not" then
      match parseUnary (parseFunction tp fuel) s0 with
      | .error err => .error err
      | .ok (fn, s1) => .ok (makeNot fn, s1)
    else if name = "eq" then makeEq tp s0
    else if name = "ne" then makeNe tp s0
    else if name = "lt" then makeLt tp s0
    else if name = "le" then makeLe tp s0
    else if name = "gt" then makeGt tp s0
    else if name = "ge" then makeGe tp s0
    else if name = "in" then makeIn s0
    else if name = "like" then makeLike s0
    else if name = "between" then makeBetween tp s0
    else .error (.other "function not recognized")

/-- `parseFilter` (filter.go lines 25-31): the empty expression is the
always-true predicate. -/
def parseFilter (tp : TP) (expr : String) : Except GoErr Filterfunc :=
  if expr = "" then .ok (fun _ => true)
  else
    match parseFunction tp (expr.length + 2) (scan expr.data) with
    | .error err => .error err
    | .ok (fn, _) => .ok fn

/-- A concrete instantiation of the abstract `time.Parse` used by
closed (witness/counterexample) statements that never exercise time
parsing. -/
def tpNone : TP := fun _ _ => none

/-- Evaluation of a compiled filter on a record, for stating concrete
facts about compilation results that are functions. -/
def evalFilter (tp : TP) (expr : String) (e : Entry) : Option Bool :=
  (parseFilter tp expr).toOption.map (fun f => f e)

/-! ## Read-pattern compiler (src/format.go) -/

/-- `parsefunc` (the scanner is threaded, the error returned). -/
abbrev Parsefunc := Entry → Scanner → Entry × Scanner × Option GoErr

/-- `hostfunc`. -/
abbrev Hostfunc := Scanner → String × Scanner × Option GoErr

/-- `getUser`. -/
def getUser : Parsefunc := fun e s =>
  let p := s.readLiteral
  ({ e with user := chlist p.1 }, p.2, none)

/-- `getGroup`. -/
def getGroup : Parsefunc := fun e s =>
  let p := s.readLiteral
  ({ e with group := chlist p.1 }, p.2, none)

/-- `getProcess`. -/
def getProcess : Parsefunc := fun e s =>
  let p := s.readLiteral
  ({ e with process := chlist p.1 }, p.2, none)

/-- `getLevel`. -/
def getLevel : Parsefunc := fun e s =>
  let p := s.readLiteral
  ({ e with level := chlist p.1 }, p.2, none)

/-- `getMessage`. -/
def getMessage : Parsefunc := fun e s =>
  let p := s.readLiteral
  ({ e with message := chlist p.1 }, p.2, none)

/-- `getPID` (src/format.go lines 265-272): the `strconv.Atoi` error —
which does not wrap `ErrPattern` — is returned as is, after `e.Pid`
received Atoi's zero result. -/
def getPID : Parsefunc := fun e s =>
  let p := s.readLiteral
  match atoiQ (chlist p.1) with
  | some n => ({ e with pid := n }, p.2, none)
  | none => ({ e with pid := 0 }, p.2, some (.other "Atoi invalid syntax"))

/-- `getBlank`. -/
def getBlank : Parsefunc := fun e s => (e, s.readBlank, none)

/-- `getWord`: append to `words`, and record under `named[name]` when a
capture name was given and the map is allocated. -/
def getWord (name : String) : Parsefunc := fun e s =>
  let p := s.readLiteral
  let word := chlist p.1
  let e1 :=
    if name ≠ "" then
      match e.named with
      | some m => { e with named := some (mapSet m name word) }
      | none => e
    else e
  ({ e1 with words := e1.words ++ [word] }, p.2, none)

/-- The fragment-collecting loop of `getWhen` (`iter+1` blank-separated
fragments; `iter` is structural so no fuel is needed). -/
def whenParts : Nat → Scanner → List String × Scanner
  | 0, s =>
    let p := s.readUntil (fun r => !goIsBlank r)
    ([chlist p.1], p.2.unread)
  | n + 1, s =>
    let p := s.readUntil (fun r => !goIsBlank r)
    let s1 := p.2.unread.readBlank
    let q := whenParts n s1
    (chlist p.1 :: q.1, q.2)

/-- `getWhen` (src/format.go lines 295-314): join the fragments and
hand them to `time.Parse`; its failure — which does not wrap
`ErrPattern` — is returned as is (`e.When` got the zero time). -/
def getWhen (tp : TP) (format : String) : Parsefunc := fun e s =>
  let iter := format.data.count ' '
  let q := whenParts iter s
  match tp format (String.intercalate " " q.1) with
  | some t => ({ e with whenT := t }, q.2, none)
  | none => ({ e with whenT := 0 }, q.2, some (.other "time parse failed"))

/-- Character loop of `getLiteral`: the first mismatch yields
`charactersMismatch`, which wraps `ErrPattern`. -/
def litLoop : List Char → Entry → Scanner → Entry × Scanner × Option GoErr
  | [], e, s => (e, s, none)
  | c :: cs, e, s =>
    let p := s.read
    if p.1 = c then litLoop cs e p.2
    else (e, p.2, some (.pattern "characters mismatched"))

/-- `getLiteral` (src/format.go lines 325-335). -/
def getLiteral (lit : String) : Parsefunc := fun e s => litLoop lit.data e s

/-- `getHostname`. -/
def getHostname : Hostfunc := fun s =>
  let p := s.readAlpha
  (chlist p.1, p.2, none)

/-- `getHostFQDN`. -/
def getHostFQDN : Hostfunc := fun s =>
  let p := s.readAlpha
  (chlist p.1, p.2, none)

/-- `getHostIP4`. -/
def getHostIP4 : Hostfunc := fun s =>
  let p := s.readAlpha
  (chlist p.1, p.2, none)

/-- `getHostIP6`. -/
def getHostIP6 : Hostfunc := fun s =>
  let p := s.readAlpha
  (chlist p.1, p.2, none)

/-- `getHostPort`. -/
def getHostPort : Hostfunc := fun s =>
  let p := s.readAlpha
  (chlist p.1, p.2, none)

/-- `getHostMask`. -/
def getHostMask : Hostfunc := fun s =>
  let p := s.readAlpha
  (chlist p.1, p.2, none)

/-- Character loop of `getHostLiteral`. -/
def hostLitLoop : List Char → Scanner → Scanner × Option GoErr
  | [], s => (s, none)
  | c :: cs, s =>
    let p := s.read
    if p.1 = c then hostLitLoop cs p.2
    else (p.2, some (.pattern "characters mismatched"))

/-- `getHostLiteral`. -/
def getHostLiteral (pat : String) : Hostfunc := fun s =>
  match hostLitLoop pat.data s with
  | (s1, none) => (pat, s1, none)
  | (s1, some err) => ("", s1, some err)

/-- Part loop of `mergeHost`. -/
def mergeHostLoop : List Hostfunc → Scanner → List String → String × Scanner × Option GoErr
  | [], s, parts => (String.join parts, s, none)
  | hf :: rest, s, parts =>
    match hf s with
    | (str, s1, none) => mergeHostLoop rest s1 (parts ++ [str])
    | (_, s1, some err) => ("", s1, some err)

/-- `mergeHost`. -/
def mergeHost (hfs : List Hostfunc) : Hostfunc := fun s => mergeHostLoop hfs s []

/-- The `hostMapping` table. -/
def hostMapping (pat : String) : Option Hostfunc :=
  match pat with
  | "hostname" => some getHostname
  | "fqdn" => some getHostFQDN
  | "ip4" => some getHostIP4
  | "ip6" => some getHostIP6
  | "port" => some getHostPort
  | "mask" => some getHostMask
  | _ => none

/-- Loop body of `parseHostFormat` (src/format.go lines 156-180), with
the fuel convention of the file header. -/
def hostLoop : Nat → Scanner → List Hostfunc → Except GoErr (List Hostfunc × Scanner)
  | 0, s, hfs => .ok (hfs, s)
  | fuel + 1, s, hfs =>
    if s.done then .ok (hfs, s)
    else
      let p := s.read
      if goIsEOL p.1 then .error (.syntaxErr "missing closing paren")
      else if p.1 = ')' then .ok (hfs, p.2)
      else
        let s1 := p.2.unread
        let q := s1.readAlpha
        let pat := chlist q.1
        match hostMapping pat with
        | none => .error (.other (pat ++ " not recognized"))
        | some fn =>
          let hfs1 := hfs ++ [fn]
          if q.2.peek = ')' then hostLoop fuel q.2 hfs1
          else
            let r := q.2.readUntil (fun c => !goIsAlpha c)
            let pat2 := chlist r.1
            let hfs2 := if pat2 ≠ "" then hfs1 ++ [getHostLiteral pat2] else hfs1
            hostLoop fuel r.2.unread hfs2

/-- `parseHostFormat` (src/format.go lines 147-182). -/
def parseHostFormat (s : Scanner) : Except GoErr (Hostfunc × Scanner) :=
  if s.peek ≠ '(' then .ok (getHostname, s)
  else
    let s1 := (s.read).2
    match hostLoop (s.input.length + 2) s1 [] with
    | .error err => .error err
    | .ok (hfs, s2) => .ok (mergeHost hfs, s2)

/-- `getHost`: `e.Host` receives the extractor's result (empty on
failure) and the error is passed through. -/
def getHost (hf : Hostfunc) : Parsefunc := fun e s =>
  match hf s with
  | (str, s1, err) => ({ e with host := str }, s1, err)

/-- Dispatch body of `parseSpecifier` (src/format.go lines 101-140) on
the already-read specifier letter; anything unrecognised is an
`ErrSyntax` compile error. -/
def parseSpecifierGo (tp : TP) (c : Char) (s0 : Scanner) : Except GoErr (Parsefunc × Scanner) :=
  match c with
  | 't' =>
    match parseTimeFormat s0 with
    | .error err => .error err
    | .ok (format, s1) => .ok (getWhen tp format, s1)
  | 'b' => .ok (getBlank, s0)
  | 'n' => .ok (getProcess, s0)
  | 'p' => .ok (getPID, s0)
  | 'u' => .ok (getUser, s0)
  | 'g' => .ok (getGroup, s0)
  | 'h' =>
    match parseHostFormat s0 with
    | .error err => .error err
    | .ok (hf, s1) => .ok (getHost hf, s1)
  | 'l' => .ok (getLevel, s0)
  | 'm' => .ok (getMessage, s0)
  | 'w' =>
    if s0.peek = '(' then
      let s1 := (s0.read).2
      let q := s1.readUntil (fun r => r ≠ ')')
      .ok (getWord (chlist q.1), q.2)
    else .ok (getWord "", s0)
  | _ => .error (.syntaxErr "specifier not recognized")

/-- `parseSpecifier`: read the specifier letter and dispatch. -/
def parseSpecifier (tp : TP) (s : Scanner) : Except GoErr (Parsefunc × Scanner) :=
  parseSpecifierGo tp (s.read).1 (s.read).2

/-- `mergeParse` (src/format.go lines 234-243): run the extractors in
pattern order, short-circuiting on the first failure. -/
def mergeParse : List Parsefunc → Parsefunc
  | [] => fun e s => (e, s, none)
  | pf :: rest => fun e s =>
    match pf e s with
    | (e1, s1, none) => mergeParse rest e1 s1
    | (e1, s1, some err) => (e1, s1, some err)

/-- Loop body of `parseFormat` (src/format.go lines 68-93), with the
fuel convention of the file header: accumulate a literal run until a
true `%`-specifier starts (a doubled `%%` contributes one literal
`%`), flushing the pending literal before each specifier and at the
end. -/
def parseFormatLoop (tp : TP) : Nat → Scanner → List Char → List Parsefunc →
    Except GoErr (List Parsefunc)
  | 0, _, _, _ => .error (.other "out of fuel")
  | fuel + 1, s, tmp, pfs =>
    let p := s.read
    if p.2.done then
      .ok (if tmp ≠ [] then pfs ++ [getLiteral (chlist tmp)] else pfs)
    else if p.1 = runeError then .error (.other "error reading pattern")
    else if p.1 ≠ '%' ∨ p.1 = p.2.peek then
      let s2 := if p.1 = '%' then (p.2.read).2 else p.2
      parseFormatLoop tp fuel s2 (tmp ++ [p.1]) pfs
    else
      let pfs1 := if tmp ≠ [] then pfs ++ [getLiteral (chlist tmp)] else pfs
      match parseSpecifier tp p.2 with
      | .error err => .error err
      | .ok (fn, s2) => parseFormatLoop tp fuel s2 [] (pfs1 ++ [fn])

/-- `parseFormat` (src/format.go lines 59-99): the empty pattern is a
compile-time `ErrSyntax`. -/
def parseFormat (tp : TP) (pattern : String) : Except GoErr Parsefunc :=
  if pattern = "" then .error (.syntaxErr "empty pattern not allowed")
  else (parseFormatLoop tp (pattern.length + 2) (scan pattern.data) [] []).map mergeParse

/-! ## Writer side (part_005 `parsePrint`, part_004 `Text`) -/

/-- `printfunc`: rendering to a string sink. -/
abbrev Printfunc := Entry → String

/-- `printString`: the empty string writes nothing. -/
def printString (str : String) : String := if str = "" then "" else str

/-- `printLiteral`. -/
def printLiteral (str : String) : Printfunc := fun _ => printString str

/-- `printWord` (defined in part_005 but not reachable from
`parsePrint` there). -/
def printWord (i : Nat) : Printfunc := fun e => printString (e.words.getD i "")

/-- Stand-in for Go's `time.Time.Format(time.RFC3339)` (standard
library, not repository code; no claim depends on its output text). -/
def goRFC3339 (t : Timestamp) : String := toString t

/-- `printTime` (part_005): RFC3339 unless the time is unset. -/
def printTime : Printfunc := fun e =>
  printString (if e.whenT ≠ 0 then goRFC3339 e.whenT else "")

/-- `printPID`: only positive pids print. -/
def printPID : Printfunc := fun e =>
  printString (if 0 < e.pid then toString e.pid else "")

/-- `printProcess`. -/
def printProcess : Printfunc := fun e => printString e.process

/-- `printUser`. -/
def printUser : Printfunc := fun e => printString e.user

/-- `printGroup`. -/
def printGroup : Printfunc := fun e => printString e.group

/-- `printHost`. -/
def printHost : Printfunc := fun e => printString e.host

/-- `printLevel`. -/
def printLevel : Printfunc := fun e => printString e.level

/-- `printMessage`. -/
def printMessage : Printfunc := fun e => printString e.message

/-- `printLine`. -/
def printLine : Printfunc := fun e => printString e.line

/-- `mergePrint`. -/
def mergePrint (pfs : List Printfunc) : Printfunc := fun e =>
  String.join (pfs.map (fun p => p e))

/-- Loop body of `parsePrint` (part_005 lines 35-74), with the fuel
convention of the file header. -/
def parsePrintLoop : Nat → Scanner → List Char → List Printfunc →
    Except GoErr (List Printfunc)
  | 0, _, _, _ => .error (.other "out of fuel")
  | fuel + 1, s, buf, pfs =>
    let p := s.read
    if p.2.done then
      .ok (if buf ≠ [] then pfs ++ [printLiteral (chlist buf)] else pfs)
    else if p.1 = '%' ∧ p.2.peek ≠ p.1 then
      let p2 := p.2.read
      let pfs1 := if buf ≠ [] then pfs ++ [printLiteral (chlist buf)] else pfs
      match p2.1 with
      | 't' => parsePrintLoop fuel p2.2 [] (pfs1 ++ [printTime])
      | 'n' => parsePrintLoop fuel p2.2 [] (pfs1 ++ [printProcess])
      | 'p' => parsePrintLoop fuel p2.2 [] (pfs1 ++ [printPID])
      | 'u' => parsePrintLoop fuel p2.2 [] (pfs1 ++ [printUser])
      | 'g' => parsePrintLoop fuel p2.2 [] (pfs1 ++ [printGroup])
      | 'h' => parsePrintLoop fuel p2.2 [] (pfs1 ++ [printHost])
      | 'l' => parsePrintLoop fuel p2.2 [] (pfs1 ++ [printLevel])
      | 'm' => parsePrintLoop fuel p2.2 [] (pfs1 ++ [printMessage])
      | '#' => parsePrintLoop fuel p2.2 [] (pfs1 ++ [printLine])
      | _ => .error (.pattern "(print) unknown specifier")
    else
      let s2 := if p.1 = '%' ∧ p.2.peek = p.1 then (p.2.read).2 else p.2
      parsePrintLoop fuel s2 (buf ++ [p.1]) pfs

/-- `parsePrint` (part_005 lines 26-79; src/print.go lines 29-32 carry
the identical empty-pattern rejection): the empty pattern is a
compile-time `ErrSyntax`. -/
def parsePrint (pattern : String) : Except GoErr Printfunc :=
  if pattern = "" then .error (.syntaxErr "empty pattern not allowed")
  else (parsePrintLoop (pattern.length + 2) (scan pattern.data) [] []).map mergePrint

/-- `defaultPrintFormat` (part_004 line 9): an empty substitution
table. -/
def defaultPrintFormat : List (String × String) := []

/-- The compilation stage of `Text` (part_004 lines 39-52): substitute
a registered default for the pattern, then compile it (the buffered
sink is out of scope). -/
def TextCompile (pattern : String) : Except GoErr Printfunc :=
  let pattern1 :=
    match defaultPrintFormat.find? (fun kv => kv.1 = pattern) with
    | some kv => kv.2
    | none => pattern
  parsePrint pattern1

/-! ## Reader (part_006; reader.go is the same minus `lino`) -/

/-- The parse step as the Reader sees it: the compiled pattern applied
to a fresh scanner over one line (`r.parse(&e, scan(line))`). -/
abbrev RParse := Entry → String → Entry × Option GoErr

/-- Wrap a compiled `parsefunc` for the Reader. -/
def applyParse (pf : Parsefunc) : RParse := fun e line =>
  let r := pf e (scan line.data)
  (r.1, r.2.2)

/-- The error of a `Read`: end of input (a clean `io.EOF`, since the
in-memory `bufio.Scanner` never fails) or a stored non-recoverable
parse error. -/
inductive RErr where
  | eof
  | parseFailed (err : GoErr)
deriving DecidableEq

/-- The Reader's state: the unconsumed lines, the `lino` counter, and
the sticky error. -/
structure RState where
  lines : List String
  lino : Nat := 0
  err : Option RErr := none
deriving DecidableEq

/-- The scan loop of `Read` (part_006 lines 64-89): skip empty lines,
skip lines failing with an `ErrPattern` mismatch (keeping the partial
entry!), stop on any other parse error, and accept the first line that
parses and passes the filter, setting `Line` and `Lino` last. -/
def readLoop (parse : RParse) (keep : Filterfunc) :
    Entry → List String → Nat → Entry × Option RErr × List String
  | e, [], _ => (e, some .eof, [])
  | e, line :: rest, lino =>
    if line = "" then readLoop parse keep e rest lino
    else
      match parse e line with
      | (e1, some (.pattern _)) => readLoop parse keep e1 rest lino
      | (e1, some err) => (e1, some (.parseFailed err), rest)
      | (e1, none) =>
        if keep e1 then ({ e1 with line := line, lino := lino }, none, rest)
        else readLoop parse keep e1 rest lino

/-- `Read` (part_006 lines 57-91): bump `lino` once per call, bail out
on a sticky error, else run the scan loop from a fresh `Empty()`
record. -/
def readRecord (parse : RParse) (keep : Filterfunc) (st : RState) :
    Entry × Option RErr × RState :=
  let lino1 := st.lino + 1
  match st.err with
  | some er => (emptyEntry, some er, { st with lino := lino1 })
  | none =>
    match readLoop parse keep emptyEntry st.lines lino1 with
    | (e, none, rest) => (e, none, { lines := rest, lino := lino1, err := none })
    | (e, some er, rest) => (e, some er, { lines := rest, lino := lino1, err := some er })

/-- Iteration body of `ReadAll` (part_006 lines 41-55).  The fuel is
spent one unit per `Read` call; `lines.length + 1` always suffices
because a successful `Read` consumes at least the accepted line. -/
def readAllAux (parse : RParse) (keep : Filterfunc) :
    Nat → RState → List Entry × RErr
  | 0, _ => ([], .eof)
  | fuel + 1, st =>
    match readRecord parse keep st with
    | (e, none, st1) =>
      let q := readAllAux parse keep fuel st1
      (e :: q.1, q.2)
    | (_, some er, _) => ([], er)

/-- `ReadAll`: collect records until the first error, and return it. -/
def readAll (parse : RParse) (keep : Filterfunc) (st : RState) : List Entry × RErr :=
  readAllAux parse keep (st.lines.length + 1) st

/-- `defaultParseFormat` (part_006 lines 9-11): the empty read pattern
stands for a syslog-like default. -/
def defaultParseFormat : List (String × String) :=
  [("", "%t(mmm dd HH:MM:ss) %u %n[%p]: %m")]

/-- The compilation stage of `NewReader` (part_006 lines 22-39):
substitute a registered default for the pattern, then compile pattern
and filter. -/
def newReaderCompile (tp : TP) (pattern filter : String) :
    Except GoErr (RParse × Filterfunc) :=
  let pattern1 :=
    match defaultParseFormat.find? (fun kv => kv.1 = pattern) with
    | some kv => kv.2
    | none => pattern
  match parseFormat tp pattern1 with
  | .error err => .error err
  | .ok pf =>
    match parseFilter tp filter with
    | .error err => .error err
    | .ok k => .ok (applyParse pf, k)

/-- The Reader's parse step for a concrete pattern, for closed
statements (total: an uncompilable pattern would yield a
non-recoverable error, but every use compiles). -/
def compiledParse (tp : TP) (pattern : String) : RParse :=
  match parseFormat tp pattern with
  | .ok pf => applyParse pf
  | .error _ => fun e _ => (e, some (.other "uncompiled"))

/-- The always-true filter (what `parseFilter ""` compiles to; the
Reader treats a nil filter identically). -/
def keepAll : Filterfunc := fun _ => true

/-- A parse step that never touches the `line`/`lino` fields (those
are the Reader's to set). -/
def PreservesLL (pf : Parsefunc) : Prop :=
  ∀ (e : Entry) (s : Scanner), ((pf e s).1.line = e.line) ∧ ((pf e s).1.lino = e.lino)

/-- `PreservesLL` at the Reader level. -/
def RPreserves (parse : RParse) : Prop :=
  ∀ (e : Entry) (l : String), ((parse e l).1.line = e.line) ∧ ((parse e l).1.lino = e.lino)

/-! ## Shared lemmas about the Reader loop -/

/-- Removing empty lines from the stream does not change what the scan
loop computes (they are skipped before the pattern is consulted); the
remaining-line state is filtered likewise. -/
theorem readLoop_filter (parse : RParse) (keep : Filterfunc) :
    ∀ (lines : List String) (e : Entry) (lino : Nat),
      readLoop parse keep e (lines.filter (fun l => decide (¬ l = ""))) lino =
        ((readLoop parse keep e lines lino).1,
         (readLoop parse keep e lines lino).2.1,
         (readLoop parse keep e lines lino).2.2.filter (fun l => decide (¬ l = ""))) := by
  intro lines
  induction lines with
  | nil => intro e lino; simp [readLoop]
  | cons line rest ih =>
    intro e lino
    by_cases hl : line = ""
    · subst hl
      simpa [readLoop] using ih e lino
    · rcases hp : parse e line with ⟨e1, er⟩
      match er with
      | none =>
        by_cases hk : keep e1
        · simp [readLoop, hl, hp, hk]
        · simpa [readLoop, hl, hp, hk] using ih e1 lino
      | some (.pattern m) =>
        simpa [readLoop, hl, hp] using ih e1 lino
      | some (.syntaxErr m) =>
        simp [readLoop, hl, hp]
      | some (.other m) =>
        simp [readLoop, hl, hp]

/-- `Read`-level version of `readLoop_filter`. -/
theorem readRecord_filter (parse : RParse) (keep : Filterfunc) (st : RState) :
    readRecord parse keep { st with lines := st.lines.filter (fun l => decide (¬ l = "")) } =
      ((readRecord parse keep st).1, (readRecord parse keep st).2.1,
        { (readRecord parse keep st).2.2 with
            lines := (readRecord parse keep st).2.2.lines.filter (fun l => decide (¬ l = "")) }) := by
  rcases st with ⟨lines, lino, err⟩
  match err with
  | some er => rfl
  | none =>
    have h := readLoop_filter parse keep lines emptyEntry (lino + 1)
    rcases hr : readLoop parse keep emptyEntry lines (lino + 1) with ⟨e, er, rest⟩
    rw [hr] at h
    match er with
    | none =>
      simp only [readRecord]
      rw [h, hr]
    | some er0 =>
      simp only [readRecord]
      rw [h, hr]

/-! ## C9 -/

/-- C9: `Reader.Read` never matches a zero-length input line against
the compiled read-pattern: an empty line is skipped before the parse
function is consulted, producing no record and no error and not
terminating iteration — so, whatever the compiled pattern and the
filter do (even if the pattern would succeed on empty input), the
whole iteration behaves exactly as if empty lines were absent from the
stream. -/
theorem c9_empty_lines_skipped :
    (∀ (parse : RParse) (keep : Filterfunc) (e : Entry) (rest : List String) (lino : Nat),
        readLoop parse keep e ("" :: rest) lino = readLoop parse keep e rest lino)
    ∧ (∀ (parse : RParse) (keep : Filterfunc) (fuel : Nat) (st : RState),
        readAllAux parse keep fuel
            { st with lines := st.lines.filter (fun l => decide (¬ l = "")) } =
          readAllAux parse keep fuel st) := by
  constructor
  · intro parse keep e rest lino
    simp [readLoop]
  · intro parse keep fuel
    induction fuel with
    | zero => intro st; rfl
    | succ n ih =>
      intro st
      have h := readRecord_filter parse keep st
      rcases hr : readRecord parse keep st with ⟨e, er, st1⟩
      rw [hr] at h
      match er with
      | none =>
        simp only [readAllAux]
        rw [h, hr]
        simp only []
        rw [ih st1]
      | some er0 =>
        simp only [readAllAux]
        rw [h, hr]

/-! ## C10 -/

/-- C10: the predicate compiled by `ne(field, value)` is pointwise the
boolean negation of the predicate compiled by `eq(field, value)` from
the same scanner state (so for every field name, value literal and
record); consequently, whenever the run-time field lookup fails and
makes `eq` evaluate to `false`, `ne` evaluates to `true` on the same
record. -/
theorem c10_ne_negates_eq :
    (∀ (tp : TP) (s : Scanner) (e : Entry),
        (makeNe tp s).toOption.map (fun p => p.1 e) =
          (makeEq tp s).toOption.map (fun p => !p.1 e))
    ∧ (∀ (tp : TP) (field value : String) (e : Entry), getField field e = none →
        makeEqFn tp field value e = false ∧ makeNot (makeEqFn tp field value) e = true) := by
  constructor
  · intro tp s e
    match h : parseFieldValue s with
    | .error err => simp [makeNe, makeEq, h, Except.toOption]
    | .ok (field, value, s1) => simp [makeNe, makeEq, h, makeNot, Except.toOption]
  · intro tp field value e h
    constructor
    · simp [makeEqFn, h]
    · simp [makeNot, makeEqFn, h]

/-- Closed instance of `c10_ne_negates_eq` at a failing field lookup. -/
theorem c10_witness :
    makeEqFn tpNone "bogus" "x" emptyEntry = false ∧
      makeNot (makeEqFn tpNone "bogus" "x") emptyEntry = true :=
  c10_ne_negates_eq.2 tpNone "bogus" "x" emptyEntry rfl

/-! ## C4 -/

/-- C4 counterexample: compiling the filter expression `eq(bogus, x)`,
whose field name is undefined, SUCCEEDS (the claim asserts it must
fail at compile time with a syntax error). -/
theorem c4_counterexample : ∃ f, parseFilter tpNone "eq(bogus, x)" = Except.ok f :=
  ⟨_, rfl⟩

/-- C4 (amended): compiling a read pattern with an unsupported
specifier letter (`%z`) fails at compile time with a syntax error; but
a filter expression referencing an undefined field name compiles
successfully — the field-name check is deferred to evaluation time,
where the failed lookup makes the compiled predicate evaluate to
`false` on every record (no error is raised at evaluation). -/
theorem c4_amended :
    (∀ tp : TP, parseFormat tp "x%zy" = .error (.syntaxErr "specifier not recognized"))
    ∧ (∀ (tp : TP) (e : Entry), evalFilter tp "eq(bogus, x)" e = some false) := by
  constructor
  · intro tp; rfl
  · intro tp e; rfl

/-! ## C5 -/

/-- C5: evaluation of the code at the claim's own example.  Compiling
`between(pid, 100, 200)` (in either textual bound order) fails with an
`ErrSyntax` "missing ')'" error: inside `parseFieldList` the closing
parenthesis is consumed by the value-separator `switch`, and the
post-loop `str.read()` then demands a second one (`parseVariadic`
consults `str.current()` at the same place), so no `between`/`in`
expression can compile and no predicate exists to match `pid=150`. -/
theorem c5_between_never_compiles :
    parseFilter tpNone "between(pid, 100, 200)" = .error (.syntaxErr "missing closing paren")
    ∧ parseFilter tpNone "between(pid, 200, 100)" = .error (.syntaxErr "missing closing paren") :=
  ⟨rfl, rfl⟩

/-! ## C6 -/

/-- C6 counterexample: the claim asserts that comparing a non-numeric
literal against `pid` makes the predicate false for every record; but
on a record with `pid = 0` the compiled `eq(pid, abc)` evaluates to
`true` (the failed `Atoi` contributes its zero result). -/
theorem c6_counterexample :
    evalFilter tpNone "eq(pid, abc)" { emptyEntry with pid := 0 } = some true := by decide

/-- C6 (amended): filter evaluation never raises — the compiled
predicates are total — and a non-numeric literal compared against the
integer field `pid` is converted with `Atoi`'s zero result, so `eq`
evaluates as `pid = 0` (false for every record whose pid is non-zero,
true when it is zero) and `lt` as `pid < 0`; the record is excluded or
included accordingly rather than the stream aborted. -/
theorem c6_amended :
    (∀ (tp : TP) (value : String) (e : Entry), atoiQ value = none →
        makeEqFn tp "pid" value e = decide (e.pid = 0))
    ∧ (∀ (tp : TP) (value : String) (e : Entry), atoiQ value = none →
        makeLtFn tp "pid" value e = decide (e.pid < 0)) := by
  constructor
  · intro tp value e h
    simp [makeEqFn, getField, equal, atoiOr0, h]
  · intro tp value e h
    simp [makeLtFn, getField, lessThan, atoiOr0, h]

/-- Closed instance of `c6_amended` on the non-numeric literal `abc`. -/
theorem c6_witness :
    makeEqFn tpNone "pid" "abc" { emptyEntry with pid := 0 } = true ∧
      makeEqFn tpNone "pid" "abc" { emptyEntry with pid := 5 } = false ∧
      makeLtFn tpNone "pid" "abc" { emptyEntry with pid := 5 } = false := by
  refine ⟨?_, ?_, ?_⟩
  · simpa using c6_amended.1 tpNone "abc" { emptyEntry with pid := 0 } (by decide)
  · simpa using c6_amended.1 tpNone "abc" { emptyEntry with pid := 5 } (by decide)
  · simpa using c6_amended.2 tpNone "abc" { emptyEntry with pid := 5 } (by decide)

/-! ## C7 -/

/-- C7 counterexample: the claim asserts that compiling the empty
string as a write pattern succeeds with the documented default; but
`Text` substitutes only patterns registered in `defaultPrintFormat`,
which is empty, so the empty write pattern reaches `parsePrint` and is
rejected as a compile-time syntax error. -/
theorem c7_counterexample :
    TextCompile "" = .error (.syntaxErr "empty pattern not allowed") := rfl

/-- C7 (amended): compiling the empty string as a read pattern
succeeds (`NewReader` substitutes the registered syslog-like default,
which compiles), and compiling the empty string as a filter yields a
predicate accepting every record; but compiling the empty string as a
write pattern fails with the "empty pattern not allowed" syntax error
because `defaultPrintFormat` has no entry for it. -/
theorem c7_amended :
    (∀ tp : TP, (newReaderCompile tp "" "").toOption.isSome = true)
    ∧ (∀ (tp : TP) (e : Entry), evalFilter tp "" e = some true)
    ∧ TextCompile "" = .error (.syntaxErr "empty pattern not allowed") := by
  refine ⟨fun tp => rfl, fun tp e => rfl, rfl⟩

/-! ## C8 -/

/-- C8 counterexample: in the symbolic template `xmmm-` the run `mmm`
is NOT translated to the abbreviated-month code `Jan` (the claim
asserts it always is): the pending unknown candidate `x` forces the
first `m` out as a literal character and the remaining `mm` maps to
`01`, so the translation is `m01-`, which does not contain `Jan`. -/
theorem c8_counterexample :
    (parseTimeFormat (scan "(xmmm-)".data)).toOption.map (fun p => p.1) = some "m01-"
    ∧ countOccur "Jan".data "m01-".data = 0 := by decide

/-- A `read` at an in-bounds position yields that rune and the
advanced cursor. -/
theorem Scanner.read_eq_of_getQ {s : Scanner} {c : Char}
    (h : s.input.get? s.next = some c) :
    s.read = (c, { s with curr := s.next, next := s.next + 1,
                          oldCurr := s.curr, oldNext := s.next }) := by
  obtain ⟨hlt, hget⟩ := List.get?_eq_some.mp h
  simp [Scanner.read, hlt]
  simpa [List.get_eq_getElem] using hget

/-- A scanner whose cursor is strictly inside the input is not done. -/
theorem Scanner.done_false_of_lt {s : Scanner} (hc : s.curr < s.input.length) :
    s.done = false := by
  simp [Scanner.done]
  omega

/-- C8 (amended): whenever the translator's pending candidate is empty
and the next three template characters are `mmm`, the loop consumes
all three as one token and emits the abbreviated-month code `Jan` —
the run is never split into the `mm` code followed by the `m` code.
(The counterexample shows this fails when a pending unknown candidate
precedes the run, as in `xmmm-`; and a candidate still pending at the
closing parenthesis is discarded.) -/
theorem c8_mmm_longest_match (fuel : Nat) (s : Scanner) (res : List Char)
    (hc : s.curr < s.input.length)
    (h0 : s.input.get? s.next = some 'm')
    (h1 : s.input.get? (s.next + 1) = some 'm')
    (h2 : s.input.get? (s.next + 2) = some 'm') :
    ttLoop (fuel + 3) s [] res =
      ttLoop fuel
        { s with curr := s.next + 2, next := s.next + 3,
                 oldCurr := s.next + 1, oldNext := s.next + 2 }
        [] (res ++ "Jan".data) := by
  have hn0 : s.next < s.input.length := (List.get?_eq_some.mp h0).1
  have hn1 : s.next + 1 < s.input.length := (List.get?_eq_some.mp h1).1
  have hr0 := Scanner.read_eq_of_getQ h0
  have c1 : lookupCount ['m'] = 6 := by decide
  have c2 : lookupCount ['m', 'm'] = 3 := by decide
  have c3 : lookupCount ['m', 'm', 'm'] = 1 := by decide
  show ttLoop (fuel + 2 + 1) s [] res = _
  rw [ttLoop, Scanner.done_false_of_lt hc, hr0]
  simp only [Bool.false_eq_true, if_false]
  rw [if_neg (by decide), if_neg (by decide), if_neg (by decide)]
  simp only [List.nil_append]
  rw [if_neg (by rw [c1]; decide), if_neg (by simp [c1])]
  have hr1 : Scanner.read ⟨s.input, s.next, s.next + 1, s.curr, s.next⟩ =
      ('m', ⟨s.input, s.next + 1, s.next + 2, s.next, s.next + 1⟩) := by
    rw [Scanner.read_eq_of_getQ (by simpa using h1)]
  show ttLoop (fuel + 1 + 1) _ _ _ = _
  rw [ttLoop, Scanner.done_false_of_lt (by simpa using hn0), hr1]
  simp only [Bool.false_eq_true, if_false]
  rw [if_neg (by decide), if_neg (by decide), if_neg (by decide)]
  rw [if_neg (by rw [show ['m'] ++ ['m'] = ['m', 'm'] from rfl, c2]; decide),
      if_neg (by simp [show ['m'] ++ ['m'] = ['m', 'm'] from rfl, c2])]
  have hr2 : Scanner.read ⟨s.input, s.next + 1, s.next + 2, s.next, s.next + 1⟩ =
      ('m', ⟨s.input, s.next + 2, s.next + 3, s.next + 1, s.next + 2⟩) := by
    rw [Scanner.read_eq_of_getQ (by simpa using h2)]
  rw [ttLoop, Scanner.done_false_of_lt (by simpa using hn1), hr2]
  simp only [Bool.false_eq_true, if_false]
  rw [if_neg (by decide), if_neg (by decide), if_neg (by decide)]
  rw [if_pos (by rw [show ['m'] ++ ['m'] ++ ['m'] = ['m', 'm', 'm'] from rfl, c3])]
  rfl

/-- Closed instance of `c8_mmm_longest_match` on the template `(mmm)`
just after its opening parenthesis. -/
theorem c8_witness :
    ttLoop 5 ⟨"(mmm)".data, 0, 1, 0, 0⟩ [] [] =
      ttLoop 2 ⟨"(mmm)".data, 3, 4, 2, 3⟩ [] "Jan".data :=
  c8_mmm_longest_match 2 ⟨"(mmm)".data, 0, 1, 0, 0⟩ []
    (by decide) (by decide) (by decide) (by decide)

/-! ## Preservation of `Line`/`Lino` by compiled read patterns -/

/-- `getLiteral` never modifies the entry at all. -/
theorem litLoop_entry : ∀ (cs : List Char) (e : Entry) (s : Scanner), (litLoop cs e s).1 = e
  | [], _, _ => rfl
  | c :: cs, e, s => by
    by_cases h : (s.read).1 = c
    · simpa [litLoop, h] using litLoop_entry cs e (s.read).2
    · simp [litLoop, h]

theorem pres_getLiteral (lit : String) : PreservesLL (getLiteral lit) := by
  intro e s
  simp [getLiteral, litLoop_entry]

theorem pres_getUser : PreservesLL getUser := fun _ _ => ⟨rfl, rfl⟩

theorem pres_getGroup : PreservesLL getGroup := fun _ _ => ⟨rfl, rfl⟩

theorem pres_getProcess : PreservesLL getProcess := fun _ _ => ⟨rfl, rfl⟩

theorem pres_getLevel : PreservesLL getLevel := fun _ _ => ⟨rfl, rfl⟩

theorem pres_getMessage : PreservesLL getMessage := fun _ _ => ⟨rfl, rfl⟩

theorem pres_getBlank : PreservesLL getBlank := fun _ _ => ⟨rfl, rfl⟩

theorem pres_getPID : PreservesLL getPID := by
  intro e s
  cases h : atoiQ (chlist (s.readLiteral).1) with
  | none => simp [getPID, h]
  | some n => simp [getPID, h]

theorem pres_getWhen (tp : TP) (format : String) : PreservesLL (getWhen tp format) := by
  intro e s
  cases h : tp format (String.intercalate " " (whenParts (format.data.count ' ') s).1) with
  | none => simp [getWhen, h]
  | some t => simp [getWhen, h]

theorem pres_getWord (name : String) : PreservesLL (getWord name) := by
  intro e s
  by_cases hn : name = ""
  · simp [getWord, hn]
  · cases hm : e.named with
    | none => simp [getWord, hn, hm]
    | some m => simp [getWord, hn, hm]

theorem pres_getHost (hf : Hostfunc) : PreservesLL (getHost hf) := by
  intro e s
  rcases h : hf s with ⟨str, s1, err⟩
  simp [getHost, h]

/-- Every extractor produced by the `parseSpecifier` dispatch
preserves `line`/`lino`. -/
theorem parseSpecifierGo_preserves {tp : TP} {c : Char} {s0 s1 : Scanner} {fn : Parsefunc}
    (h : parseSpecifierGo tp c s0 = .ok (fn, s1)) : PreservesLL fn := by
  unfold parseSpecifierGo at h
  split at h
  all_goals try (split at h)
  all_goals
    first
      | exact Except.noConfusion h
      | (simp only [Except.ok.injEq, Prod.mk.injEq] at h
         obtain ⟨h1, h2⟩ := h
         subst h1
         first
           | exact pres_getBlank
           | exact pres_getProcess
           | exact pres_getPID
           | exact pres_getUser
           | exact pres_getGroup
           | exact pres_getLevel
           | exact pres_getMessage
           | exact pres_getWhen _ _
           | exact pres_getHost _
           | exact pres_getWord _)

/-- Every extractor produced by `parseSpecifier` preserves
`line`/`lino`. -/
theorem parseSpecifier_preserves {tp : TP} {s s1 : Scanner} {fn : Parsefunc}
    (h : parseSpecifier tp s = .ok (fn, s1)) : PreservesLL fn := by
  unfold parseSpecifier at h
  exact parseSpecifierGo_preserves h

/-- The extractor list built by the `parseFormat` loop consists of
`line`/`lino`-preserving extractors. -/
theorem parseFormatLoop_preserves (tp : TP) :
    ∀ (fuel : Nat) (s : Scanner) (tmp : List Char) (pfs out : List Parsefunc),
      (∀ pf ∈ pfs, PreservesLL pf) →
      parseFormatLoop tp fuel s tmp pfs = .ok out →
      ∀ pf ∈ out, PreservesLL pf := by
  intro fuel
  induction fuel with
  | zero =>
    intro s tmp pfs out hp h
    exact absurd h (by simp [parseFormatLoop])
  | succ n ih =>
    intro s tmp pfs out hp h
    rw [parseFormatLoop] at h
    split at h
    · simp only [Except.ok.injEq] at h
      subst h
      intro pf hpf
      split at hpf
      · rcases List.mem_append.mp hpf with h1 | h1
        · exact hp _ h1
        · rw [List.mem_singleton.mp h1]; exact pres_getLiteral _
      · exact hp _ hpf
    · split at h
      · exact absurd h (by simp)
      · split at h
        · exact ih _ _ _ _ hp h
        · split at h
          · split at h
            · exact absurd h (by simp)
            · rename_i heq
              refine ih _ _ _ _ ?_ h
              intro pf hpf
              rcases List.mem_append.mp hpf with h1 | h1
              · rcases List.mem_append.mp h1 with h2 | h2
                · exact hp _ h2
                · rw [List.mem_singleton.mp h2]; exact pres_getLiteral _
              · rw [List.mem_singleton.mp h1]
                exact parseSpecifier_preserves heq
          · split at h
            · exact absurd h (by simp)
            · rename_i heq
              refine ih _ _ _ _ ?_ h
              intro pf hpf
              rcases List.mem_append.mp hpf with h1 | h1
              · exact hp _ h1
              · rw [List.mem_singleton.mp h1]
                exact parseSpecifier_preserves heq

/-- `mergeParse` of preserving extractors preserves. -/
theorem mergeParse_preserves :
    ∀ (pfs : List Parsefunc), (∀ pf ∈ pfs, PreservesLL pf) → PreservesLL (mergeParse pfs)
  | [], _ => fun _ _ => ⟨rfl, rfl⟩
  | pf :: rest, hp => by
    intro e s
    have hpf := hp pf (by simp)
    have hrest := mergeParse_preserves rest (fun q hq => hp q (by simp [hq]))
    rcases hh : pf e s with ⟨e1, s1, err⟩
    have h1 := hpf e s
    rw [hh] at h1
    match err with
    | none =>
      have h2 := hrest e1 s1
      simp only [mergeParse, hh]
      exact ⟨h2.1.trans h1.1, h2.2.trans h1.2⟩
    | some ge =>
      simp only [mergeParse, hh]
      exact h1

/-- A compiled read pattern preserves `line`/`lino`. -/
theorem parseFormat_preserves {tp : TP} {pattern : String} {pf : Parsefunc}
    (h : parseFormat tp pattern = .ok pf) : PreservesLL pf := by
  unfold parseFormat at h
  split at h
  · exact absurd h (by simp)
  · cases hl : parseFormatLoop tp (pattern.length + 2) (scan pattern.data) [] [] with
    | error err => rw [hl] at h; exact absurd h (by simp [Except.map])
    | ok out =>
      rw [hl] at h
      simp only [Except.map, Except.ok.injEq] at h
      subst h
      exact mergeParse_preserves out
        (parseFormatLoop_preserves tp _ _ _ _ _ (by intro pf hpf; simp at hpf) hl)

/-- The Reader's parse step for any pattern string preserves
`line`/`lino`. -/
theorem compiledParse_preserves (tp : TP) (pattern : String) :
    RPreserves (compiledParse tp pattern) := by
  intro e l
  unfold compiledParse
  cases h : parseFormat tp pattern with
  | ok pf =>
    have := parseFormat_preserves h e (scan l.data)
    simpa [applyParse] using this
  | error err => exact ⟨rfl, rfl⟩

/-! ## Reader-loop provenance lemmas -/

/-- When the scan loop ends in an error, the returned (partial) entry
still carries the `line`/`lino` it started with. -/
theorem readLoop_err_fields (parse : RParse) (keep : Filterfunc) (hpres : RPreserves parse) :
    ∀ (lines : List String) (e : Entry) (lino : Nat) (e1 : Entry) (er : RErr)
      (rest : List String),
      readLoop parse keep e lines lino = (e1, some er, rest) →
      e1.line = e.line ∧ e1.lino = e.lino := by
  intro lines
  induction lines with
  | nil =>
    intro e lino e1 er rest h
    simp only [readLoop, Prod.mk.injEq] at h
    rw [← h.1]
    exact ⟨rfl, rfl⟩
  | cons line rest0 ih =>
    intro e lino e1 er rest h
    by_cases hl : line = ""
    · subst hl
      simp only [readLoop, if_pos rfl] at h
      exact ih _ _ _ _ _ h
    · rcases hp : parse e line with ⟨d, ge⟩
      have hpe := hpres e line
      rw [hp] at hpe
      match ge with
      | none =>
        by_cases hk : keep d
        · simp [readLoop, hl, hp, hk] at h
        · simp only [readLoop, if_neg hl, hp, hk] at h
          simp only [Bool.false_eq_true, if_false] at h
          have := ih _ _ _ _ _ h
          exact ⟨this.1.trans hpe.1, this.2.trans hpe.2⟩
      | some (.pattern m) =>
        simp only [readLoop, if_neg hl, hp] at h
        have := ih _ _ _ _ _ h
        exact ⟨this.1.trans hpe.1, this.2.trans hpe.2⟩
      | some (.syntaxErr m) =>
        simp only [readLoop, if_neg hl, hp, Prod.mk.injEq] at h
        rw [← h.1]
        exact hpe
      | some (.other m) =>
        simp only [readLoop, if_neg hl, hp, Prod.mk.injEq] at h
        rw [← h.1]
        exact hpe

/-- When the scan loop succeeds, the returned entry is an accepted one:
some non-empty line of the stream parsed without error into an entry
that passed the filter, and `line`/`lino` were then set on it. -/
theorem readLoop_success_accepted (parse : RParse) (keep : Filterfunc) :
    ∀ (lines : List String) (e : Entry) (lino : Nat) (out : Entry) (rest : List String),
      readLoop parse keep e lines lino = (out, none, rest) →
      ∃ (l : String) (eprev e1 : Entry), l ∈ lines ∧ ¬ l = "" ∧
        parse eprev l = (e1, none) ∧ keep e1 = true ∧
        out = { e1 with line := l, lino := lino } := by
  intro lines
  induction lines with
  | nil =>
    intro e lino out rest h
    simp [readLoop] at h
  | cons line rest0 ih =>
    intro e lino out rest h
    by_cases hl : line = ""
    · subst hl
      simp only [readLoop, if_pos rfl] at h
      obtain ⟨l, eprev, e1, hmem, hne, hp, hk, hout⟩ := ih _ _ _ _ h
      exact ⟨l, eprev, e1, List.mem_cons_of_mem _ hmem, hne, hp, hk, hout⟩
    · rcases hp : parse e line with ⟨d, ge⟩
      match ge with
      | none =>
        by_cases hk : keep d
        · simp only [readLoop, if_neg hl, hp, hk, if_pos, Prod.mk.injEq] at h
          exact ⟨line, e, d, List.mem_cons_self _ _, hl, hp, by simp [hk], by rw [← h.1]⟩
        · simp only [readLoop, if_neg hl, hp, hk] at h
          simp only [Bool.false_eq_true, if_false] at h
          obtain ⟨l, eprev, e1, hmem, hne, hpp, hkk, hout⟩ := ih _ _ _ _ h
          exact ⟨l, eprev, e1, List.mem_cons_of_mem _ hmem, hne, hpp, hkk, hout⟩
      | some (.pattern m) =>
        simp only [readLoop, if_neg hl, hp] at h
        obtain ⟨l, eprev, e1, hmem, hne, hpp, hkk, hout⟩ := ih _ _ _ _ h
        exact ⟨l, eprev, e1, List.mem_cons_of_mem _ hmem, hne, hpp, hkk, hout⟩
      | some (.syntaxErr m) =>
        simp [readLoop, hl, hp] at h
      | some (.other m) =>
        simp [readLoop, hl, hp] at h

/-! ## C1 -/

/-- C1 counterexample: for the stream `id=alice`, `bad`, `id=bob`
under the pattern `id=%u` (middle line violates the pattern, outer
lines conform), `ReadAll` yields the two conforming records in order,
but the second record's `Lino` is 2, not the 1-based ordinal 3 of its
line in the original input — the malformed line does NOT consume a
line number, because `lino` is incremented once per `Read` call rather
than once per input line. -/
theorem c1_counterexample :
    (readAll (compiledParse tpNone "id=%u") keepAll
        ⟨["id=alice", "bad", "id=bob"], 0, none⟩).1.map (fun e => (e.lino, e.user)) =
      [(1, "alice"), (2, "bob")]
    ∧ [(1, "alice"), (2, "bob")] ≠ [((1 : Nat), "alice"), (3, "bob")] := by constructor <;> decide

/-- C1 (amended): for every stream of exactly three non-empty lines
whose middle line fails the compiled pattern with a recoverable
mismatch and whose outer lines parse and pass the filter, `ReadAll`
yields exactly the two conforming records in original order and ends
with `io.EOF`; their `Lino` fields are the consecutive ordinals 1 and
2 of the accepted records (the Reader numbers `Read` calls, so the
malformed line does not consume a line number). -/
theorem c1_sandwich (parse : RParse) (keep : Filterfunc) (l1 l2 l3 : String)
    (e1 d e2 : Entry) (m : String)
    (h1 : ¬ l1 = "") (h2 : ¬ l2 = "") (h3 : ¬ l3 = "")
    (hp1 : parse emptyEntry l1 = (e1, none)) (hk1 : keep e1 = true)
    (hp2 : parse emptyEntry l2 = (d, some (.pattern m)))
    (hp3 : parse d l3 = (e2, none)) (hk2 : keep e2 = true) :
    readAll parse keep ⟨[l1, l2, l3], 0, none⟩ =
      ([{ e1 with line := l1, lino := 1 }, { e2 with line := l3, lino := 2 }], .eof) := by
  have r1 : readRecord parse keep ⟨[l1, l2, l3], 0, none⟩ =
      ({ e1 with line := l1, lino := 1 }, none, ⟨[l2, l3], 1, none⟩) := by
    simp [readRecord, readLoop, h1, hp1, hk1]
  have r2 : readRecord parse keep ⟨[l2, l3], 1, none⟩ =
      ({ e2 with line := l3, lino := 2 }, none, ⟨[], 2, none⟩) := by
    simp [readRecord, readLoop, h2, h3, hp2, hp3, hk2]
  have r3 : readRecord parse keep ⟨[], 2, none⟩ =
      (emptyEntry, some .eof, ⟨[], 3, some .eof⟩) := by
    simp [readRecord, readLoop]
  simp [readAll, readAllAux, r1, r2, r3]

/-- Closed instance of `c1_sandwich` on the stream of the
counterexample. -/
theorem c1_witness :
    readAll (compiledParse tpNone "id=%u") keepAll ⟨["id=alice", "bad", "id=bob"], 0, none⟩ =
      ([{ emptyEntry with user := "alice", line := "id=alice", lino := 1 },
        { emptyEntry with user := "bob", line := "id=bob", lino := 2 }], .eof) :=
  c1_sandwich (compiledParse tpNone "id=%u") keepAll "id=alice" "bad" "id=bob"
    { emptyEntry with user := "alice" } emptyEntry { emptyEntry with user := "bob" }
    "characters mismatched" (by decide) (by decide) (by decide) (by decide) (by decide)
    (by decide) (by decide) (by decide)

/-! ## C2 -/

/-- C2 counterexample: under the pattern `%w:x`, the line `abc:y`
fails with a recoverable mismatch only after `%w` appended the word
`abc`; the record is NOT reset before the next candidate line, so the
record eventually returned for `def:x` still carries `abc` — a field
value written by a failed parse attempt — next to its own `def`. -/
theorem c2_counterexample :
    (readAll (compiledParse tpNone "%w:x") keepAll ⟨["abc:y", "def:x"], 0, none⟩).1.map
        (fun e => e.words) = [["abc", "def"]]
    ∧ "abc" ∈ ["abc", "def"] := by constructor <;> decide

/-- C2 (amended): the Record is fully reset at the start of each
`Read` call, but not before each candidate line within a call: a
failed recoverable attempt hands its partially-written record to the
next candidate line (first conjunct), so values it wrote can persist
into the record eventually returned.  `Line`/`Lino` are still set
last and only on acceptance: a `Read` that ends in an error returns a
record with them unset (second conjunct; compiled patterns never touch
them), and a successful `Read`'s record is an accepted one — some
non-empty line parsed without error, passed the filter, and only then
had `Line`/`Lino` set (third conjunct). -/
theorem c2_record_reset :
    (∀ (parse : RParse) (keep : Filterfunc) (e e1 : Entry) (m line : String)
        (rest : List String) (lino : Nat), ¬ line = "" →
        parse e line = (e1, some (.pattern m)) →
        readLoop parse keep e (line :: rest) lino = readLoop parse keep e1 rest lino)
    ∧ (∀ (parse : RParse) (keep : Filterfunc) (st : RState) (e1 : Entry) (er : RErr)
        (st1 : RState), RPreserves parse →
        readRecord parse keep st = (e1, some er, st1) →
        e1.line = "" ∧ e1.lino = 0)
    ∧ (∀ (parse : RParse) (keep : Filterfunc) (lines : List String) (e : Entry)
        (lino : Nat) (out : Entry) (rest : List String),
        readLoop parse keep e lines lino = (out, none, rest) →
        ∃ (l : String) (eprev e1 : Entry), l ∈ lines ∧ ¬ l = "" ∧
          parse eprev l = (e1, none) ∧ keep e1 = true ∧
          out = { e1 with line := l, lino := lino }) := by
  refine ⟨?_, ?_, ?_⟩
  · intro parse keep e e1 m line rest lino hl hp
    simp [readLoop, hl, hp]
  · intro parse keep st e1 er st1 hpres h
    rcases st with ⟨lines, lino, err⟩
    match herr : err with
    | some er0 =>
      simp only [readRecord, Prod.mk.injEq] at h
      rw [← h.1]
      exact ⟨rfl, rfl⟩
    | none =>
      simp only [readRecord] at h
      rcases hr : readLoop parse keep emptyEntry lines (lino + 1) with ⟨e0, ge, rest⟩
      rw [hr] at h
      match ge with
      | none => simp at h
      | some ge0 =>
        simp only [Prod.mk.injEq] at h
        rw [← h.1]
        exact readLoop_err_fields parse keep hpres lines emptyEntry (lino + 1) e0 ge0 rest hr
  · intro parse keep lines e lino out rest h
    exact readLoop_success_accepted parse keep lines e lino out rest h

/-- Closed instance of `c2_record_reset`: the word-leaking skip step
of the counterexample stream, and the unset `Line`/`Lino` of an
errored `Read` under the pattern `%p`. -/
theorem c2_witness :
    readLoop (compiledParse tpNone "%w:x") keepAll emptyEntry ["abc:y", "def:x"] 1 =
      readLoop (compiledParse tpNone "%w:x") keepAll
        { emptyEntry with words := ["abc"] } ["def:x"] 1
    ∧ ((emptyEntry : Entry).line = "" ∧ (emptyEntry : Entry).lino = 0) := by
  constructor
  · exact c2_record_reset.1 (compiledParse tpNone "%w:x") keepAll emptyEntry
      { emptyEntry with words := ["abc"] } "characters mismatched" "abc:y" ["def:x"] 1
      (by decide) (by decide)
  · exact c2_record_reset.2.1 (compiledParse tpNone "%p") keepAll ⟨["zz"], 0, none⟩
      emptyEntry (.parseFailed (.other "Atoi invalid syntax"))
      ⟨[], 1, some (.parseFailed (.other "Atoi invalid syntax"))⟩
      (compiledParse_preserves tpNone "%p") (by decide)

/-! ## C3 -/

/-- C3 counterexample: under the pattern `%p`, the stream `abc`, `12`
makes `ReadAll` terminate with the (non-`ErrPattern`) `strconv.Atoi`
error instead of silently discarding the non-numeric line and yielding
the conforming record from `12` with a final `io.EOF` — a non-numeric
pid is a stream-terminating condition, not a recoverable per-line
one. -/
theorem c3_counterexample :
    readAll (compiledParse tpNone "%p") keepAll ⟨["abc", "12"], 0, none⟩ =
      ([], .parseFailed (.other "Atoi invalid syntax"))
    ∧ RErr.parseFailed (.other "Atoi invalid syntax") ≠ RErr.eof := by constructor <;> decide

/-- C3 (amended): only failures wrapping `ErrPattern` are recoverable
per-line conditions.  A literal character mismatch is such a failure
(third conjunct), and `Reader.Read` silently discards the line and
advances (first conjunct); but an unparseable time value or a
non-numeric pid surfaces as a non-`ErrPattern` error (fourth and fifth
conjuncts), which `Reader.Read` stores and returns, terminating
iteration (second conjunct). -/
theorem c3_mismatch_tolerance :
    (∀ (parse : RParse) (keep : Filterfunc) (e e1 : Entry) (m line : String)
        (rest : List String) (lino : Nat), ¬ line = "" →
        parse e line = (e1, some (.pattern m)) →
        readLoop parse keep e (line :: rest) lino = readLoop parse keep e1 rest lino)
    ∧ (∀ (parse : RParse) (keep : Filterfunc) (e e1 : Entry) (m line : String)
        (rest : List String) (lino : Nat), ¬ line = "" →
        parse e line = (e1, some (.other m)) →
        readLoop parse keep e (line :: rest) lino =
          (e1, some (.parseFailed (.other m)), rest))
    ∧ (∀ (lit : String) (e : Entry) (s : Scanner),
        (getLiteral lit e s).2.2 = none ∨ ∃ m, (getLiteral lit e s).2.2 = some (.pattern m))
    ∧ (∀ (e : Entry) (s : Scanner), atoiQ (chlist (s.readLiteral).1) = none →
        (getPID e s).2.2 = some (.other "Atoi invalid syntax"))
    ∧ (∀ (tp : TP) (fmt : String) (e : Entry) (s : Scanner),
        tp fmt (String.intercalate " " (whenParts (fmt.data.count ' ') s).1) = none →
        (getWhen tp fmt e s).2.2 = some (.other "time parse failed")) := by
  refine ⟨?_, ?_, ?_, ?_, ?_⟩
  · intro parse keep e e1 m line rest lino hl hp
    simp [readLoop, hl, hp]
  · intro parse keep e e1 m line rest lino hl hp
    simp [readLoop, hl, hp]
  · intro lit e s
    show (litLoop lit.data e s).2.2 = none ∨
      ∃ m, (litLoop lit.data e s).2.2 = some (.pattern m)
    generalize lit.data = cs
    induction cs generalizing e s with
    | nil => exact Or.inl rfl
    | cons c cs ih =>
      by_cases h : (s.read).1 = c
      · simpa [litLoop, h] using ih e (s.read).2
      · exact Or.inr ⟨"characters mismatched", by simp [litLoop, h]⟩
  · intro e s h
    simp [getPID, h]
  · intro tp fmt e s h
    simp [getWhen, h]

/-- Closed instance of `c3_mismatch_tolerance`: the fatal stop on the
non-numeric pid line `abc`, and `getPID`'s non-pattern error there. -/
theorem c3_witness :
    readLoop (compiledParse tpNone "%p") keepAll emptyEntry ["abc", "12"] 1 =
      (emptyEntry, some (.parseFailed (.other "Atoi invalid syntax")), ["12"])
    ∧ (getPID emptyEntry (scan "abc".data)).2.2 = some (.other "Atoi invalid syntax") := by
  constructor
  · exact c3_mismatch_tolerance.2.1 (compiledParse tpNone "%p") keepAll emptyEntry
      emptyEntry "Atoi invalid syntax" "abc" ["12"] 1 (by decide) (by decide)
  · exact c3_mismatch_tolerance.2.2.2.1 emptyEntry (scan "abc".data) (by decide)
